import Mathlib

/-!
Verification development for the `ics122a-webcrawler` repository
(`src/scraper.py`).  The Python module is shallowly embedded: strings are
Lean `String`s, Python dicts / `collections.Counter`s are association lists
that keep insertion order, Python sets are `Finset String`, and fallible
code returns `Except String`.  The relevant pieces of the standard library
(`urllib.parse.urlsplit`, `urlparse`, `parse_qs`, `urljoin`, `urldefrag`,
the `hostname` accessor) are modelled after CPython 3.11's pure-Python
implementation, specialised to `str` inputs with `allow_fragments = True`.
Unicode-only refinements (full-Unicode `str.lower`, `\w` beyond ASCII,
UTF-8 `errors='replace'` details of `unquote`) are modelled at ASCII
fidelity; every concrete input used below is ASCII.
-/

set_option maxRecDepth 100000

namespace Crawler

/-! ### Basic string helpers (Python `in`, `str.split`, …) -/

/-- Is `needle` a contiguous infix of the character list? -/
def listInfix (needle : List Char) : List Char → Bool
  | [] => needle.isEmpty
  | c :: rest => needle.isPrefixOf (c :: rest) || listInfix needle rest

/-- Python `needle in haystack` for strings: substring containment. -/
def strContains (haystack needle : String) : Bool :=
  listInfix needle.data haystack.data

/-- Python `s.split(sep)` for a one-character separator: split on every
occurrence, keeping empty chunks. -/
def splitOnCharAux (sep : Char) (acc : List Char) : List Char → List String
  | [] => [String.mk acc.reverse]
  | c :: rest =>
    if c == sep then String.mk acc.reverse :: splitOnCharAux sep [] rest
    else splitOnCharAux sep (c :: acc) rest

/-- Python `s.split(sep)` (single-character separator). -/
def strSplitOnChar (sep : Char) (s : String) : List String :=
  splitOnCharAux sep [] s.data

/-- Python `s.lower()` (ASCII model). -/
def toLowerStr (s : String) : String := String.mk (s.data.map Char.toLower)

/-- Python `s.endswith(t)`. -/
def strEndsWith (s t : String) : Bool := t.data.isSuffixOf s.data

/-- Python `s.startswith(t)`. -/
def strStartsWith (s t : String) : Bool := t.data.isPrefixOf s.data

/-- Python `s.strip()` (ASCII whitespace model). -/
def strTrim (s : String) : String :=
  String.mk
    (((s.data.dropWhile Char.isWhitespace).reverse.dropWhile
      Char.isWhitespace).reverse)

/-- First index of a character in a list, if any (Python `str.find`). -/
def findIdxOfChar (cs : List Char) (c : Char) : Option Nat :=
  cs.findIdx? (fun x => x == c)

/-- Python `s.split(sep, 1)` behaviour used via `splitFirst`: the part
before the first occurrence of `sep` and the part after it (the whole
string and `[]` when `sep` is absent). -/
def splitFirst (cs : List Char) (sep : Char) : List Char × List Char :=
  match findIdxOfChar cs sep with
  | some i => (cs.take i, cs.drop (i + 1))
  | none => (cs, [])

/-! ### `urllib.parse.urlsplit` / `urlparse` (CPython 3.11) -/

/-- CPython removes every tab, carriage return and newline from the URL
before splitting (`_UNSAFE_URL_BYTES_TO_REMOVE`). -/
def removeUnsafeBytes (cs : List Char) : List Char :=
  cs.filter (fun c => !(c == '\t' || c == '\r' || c == '\n'))

/-- CPython strips leading C0-control-or-space characters
(`_WHATWG_C0_CONTROL_OR_SPACE`) from the URL. -/
def lstripControl (cs : List Char) : List Char :=
  cs.dropWhile (fun c => c.toNat ≤ 0x20)

/-- Characters allowed in a scheme after the initial letter
(CPython `scheme_chars`). -/
def isSchemeChar (c : Char) : Bool :=
  c.isAlpha || c.isDigit || c == '+' || c == '-' || c == '.'

/-- Scheme extraction step of `urlsplit`: if the text up to the first `':'`
is an initial ASCII letter followed by scheme characters, that prefix
(lower-cased) is the scheme and the remainder follows the colon; otherwise
the default scheme is kept and the text is unchanged. -/
def splitScheme (cs : List Char) (defaultScheme : String) :
    String × List Char :=
  match findIdxOfChar cs ':' with
  | some i =>
    if 0 < i then
      match cs.take i with
      | c0 :: restHead =>
        if c0.isAlpha && restHead.all isSchemeChar then
          (String.mk ((cs.take i).map Char.toLower), cs.drop (i + 1))
        else (defaultScheme, cs)
      | [] => (defaultScheme, cs)
    else (defaultScheme, cs)
  | none => (defaultScheme, cs)

/-- `_splitnetloc`: the netloc runs from after `"//"` up to the first
`'/'`, `'?'` or `'#'`. -/
def splitNetloc (cs : List Char) : List Char × List Char :=
  (cs.takeWhile (fun c => !(c == '/' || c == '?' || c == '#')),
   cs.dropWhile (fun c => !(c == '/' || c == '?' || c == '#')))

/-- Result of `urlsplit`. -/
structure SplitResult where
  scheme : String
  netloc : String
  path : String
  query : String
  fragment : String
deriving DecidableEq, Repr

/-- `urllib.parse.urlsplit(url, scheme=default, allow_fragments=True)`.
Raises (`.error`) exactly on the "Invalid IPv6 URL" check: a `'['` in the
netloc without `']'` or vice versa. -/
def urlsplit (url : String) (defaultScheme : String) :
    Except String SplitResult :=
  let cs := lstripControl (removeUnsafeBytes url.data)
  let (scheme, rest) := splitScheme cs defaultScheme
  let (netloc, rest) :=
    if rest.take 2 = ['/', '/'] then splitNetloc (rest.drop 2)
    else ([], rest)
  if (netloc.contains '[' && !netloc.contains ']') ||
     (netloc.contains ']' && !netloc.contains '[') then
    .error "Invalid IPv6 URL"
  else
    let (rest, fragment) := splitFirst rest '#'
    let (path, query) := splitFirst rest '?'
    .ok ⟨scheme, String.mk netloc, String.mk path,
         String.mk query, String.mk fragment⟩

/-- Result of `urlparse` (`urlsplit` plus the legacy `params` field). -/
structure ParseResult where
  scheme : String
  netloc : String
  path : String
  params : String
  query : String
  fragment : String
deriving DecidableEq, Repr

/-- Schemes for which `urlparse` splits `;params` off the path
(CPython `uses_params`). -/
def uses_params : List String :=
  ["", "ftp", "hdl", "prospero", "http", "imap", "https", "shttp",
   "rtsp", "rtspu", "sip", "sips", "mms", "sftp", "tel"]

/-- Index of the last occurrence of a character (Python `str.rfind`),
`none` when absent. -/
def rfindChar (cs : List Char) (c : Char) : Option Nat :=
  match findIdxOfChar cs.reverse c with
  | some j => some (cs.length - 1 - j)
  | none => none

/-- CPython `_splitparams`: split `;params` off the portion of the path
after the last `'/'` (or off the whole path when there is no `'/'`). -/
def splitparams (path : String) : String × String :=
  let cs := path.data
  if cs.contains '/' then
    let start := match rfindChar cs '/' with | some i => i | none => 0
    match findIdxOfChar (cs.drop start) ';' with
    | some j => (String.mk (cs.take (start + j)),
                 String.mk (cs.drop (start + j + 1)))
    | none => (path, "")
  else
    match findIdxOfChar cs ';' with
    | some i => (String.mk (cs.take i), String.mk (cs.drop (i + 1)))
    | none => (path, "")

/-- `urllib.parse.urlparse(url)` with the default empty scheme. -/
def urlparse (url : String) : Except String ParseResult := do
  let s ← urlsplit url ""
  if uses_params.contains s.scheme && s.path.data.contains ';' then
    let (p, par) := splitparams s.path
    .ok ⟨s.scheme, s.netloc, p, par, s.query, s.fragment⟩
  else
    .ok ⟨s.scheme, s.netloc, s.path, "", s.query, s.fragment⟩

/-- The `hostname` accessor of a parse result, as a function of the
netloc: the part after the last `'@'`, then either the bracketed host or
the part before `':'`, lower-cased (any IPv6 zone after `'%'` is kept
as-is); `none` when empty. -/
def hostnameOf (netloc : String) : Option String :=
  let hostinfo := match rfindChar netloc.data '@' with
    | some i => netloc.data.drop (i + 1)
    | none => netloc.data
  let hostname :=
    if hostinfo.contains '[' then
      let bracketed := (hostinfo.dropWhile (fun c => !(c == '['))).drop 1
      bracketed.takeWhile (fun c => !(c == ']'))
    else hostinfo.takeWhile (fun c => !(c == ':'))
  if hostname.isEmpty then none
  else
    let (pre, zone) := splitFirst hostname '%'
    some (String.mk (pre.map Char.toLower) ++
      (if zone.isEmpty && !hostname.contains '%' then ""
       else "%" ++ String.mk zone))

/-! ### `unquote` and `parse_qs` (CPython, `keep_blank_values=False`) -/

/-- Value of an ASCII hexadecimal digit character, if it is one (written
on code points: 48-57 are `0`-`9`, 97-102 are `a`-`f`, 65-70 are
`A`-`F`). -/
def hexDigitVal (c : Char) : Option Nat :=
  let n := c.toNat
  if 48 ≤ n && n ≤ 57 then some (n - 48)
  else if 97 ≤ n && n ≤ 102 then some (n - 87)
  else if 65 ≤ n && n ≤ 70 then some (n - 55)
  else none

/-- Is a byte a UTF-8 continuation byte? -/
def isContByte (b : Nat) : Bool := 0x80 ≤ b && b ≤ 0xBF

/-- UTF-8 decoding of a byte run, structurally recursive on a fuel bound
(each step consumes at least one byte, so `fuel = length` suffices; the
zero-fuel case is unreachable).  Valid sequences decode exactly as
CPython does; an invalid leading byte or truncated sequence yields one
U+FFFD and resumes after one byte (an ASCII-exact approximation of
CPython's `errors='replace'`). -/
def utf8DecodeAux : Nat → List Nat → List Char
  | 0, _ => []
  | _ + 1, [] => []
  | fuel + 1, b :: rest =>
    if b < 0x80 then Char.ofNat b :: utf8DecodeAux fuel rest
    else if 0xC2 ≤ b && b ≤ 0xDF then
      match rest with
      | c1 :: rest' =>
        if isContByte c1 then
          Char.ofNat ((b - 0xC0) * 0x40 + (c1 - 0x80)) ::
            utf8DecodeAux fuel rest'
        else '�' :: utf8DecodeAux fuel (c1 :: rest')
      | [] => ['�']
    else if 0xE0 ≤ b && b ≤ 0xEF then
      match rest with
      | c1 :: c2 :: rest' =>
        let lo1 := if b == 0xE0 then 0xA0 else 0x80
        let hi1 := if b == 0xED then 0x9F else 0xBF
        if (lo1 ≤ c1 && c1 ≤ hi1) && isContByte c2 then
          Char.ofNat ((b - 0xE0) * 0x1000 + (c1 - 0x80) * 0x40 + (c2 - 0x80))
            :: utf8DecodeAux fuel rest'
        else '�' :: utf8DecodeAux fuel (c1 :: c2 :: rest')
      | [c1] => '�' :: utf8DecodeAux fuel [c1]
      | [] => ['�']
    else if 0xF0 ≤ b && b ≤ 0xF4 then
      match rest with
      | c1 :: c2 :: c3 :: rest' =>
        let lo1 := if b == 0xF0 then 0x90 else 0x80
        let hi1 := if b == 0xF4 then 0x8F else 0xBF
        if (lo1 ≤ c1 && c1 ≤ hi1) && isContByte c2 && isContByte c3 then
          Char.ofNat ((b - 0xF0) * 0x40000 + (c1 - 0x80) * 0x1000 +
            (c2 - 0x80) * 0x40 + (c3 - 0x80)) :: utf8DecodeAux fuel rest'
        else '�' :: utf8DecodeAux fuel (c1 :: c2 :: c3 :: rest')
      | [c1, c2] => '�' :: utf8DecodeAux fuel [c1, c2]
      | [c1] => '�' :: utf8DecodeAux fuel [c1]
      | [] => ['�']
    else '�' :: utf8DecodeAux fuel rest

/-- UTF-8 decode a whole byte run. -/
def utf8Decode (bs : List Nat) : List Char := utf8DecodeAux bs.length bs

/-- Tokenise a percent-encoded string: each `%XX` with two hex digits
becomes a byte (`Sum.inl`), everything else stays a character. -/
def percentTokens : List Char → List (Sum Nat Char)
  | '%' :: a :: b :: rest =>
    match hexDigitVal a, hexDigitVal b with
    | some ha, some hb => Sum.inl (16 * ha + hb) :: percentTokens rest
    | _, _ => Sum.inr '%' :: percentTokens (a :: b :: rest)
  | c :: rest => Sum.inr c :: percentTokens rest
  | [] => []

/-- Decode the token stream: maximal runs of bytes are UTF-8 decoded,
plain characters pass through. -/
def decodeTokens : List Nat → List (Sum Nat Char) → List Char
  | pending, [] => utf8Decode pending.reverse
  | pending, Sum.inl b :: rest => decodeTokens (b :: pending) rest
  | pending, Sum.inr c :: rest =>
    utf8Decode pending.reverse ++ c :: decodeTokens [] rest

/-- `urllib.parse.unquote` with UTF-8 / replace semantics. -/
def unquote (s : String) : String :=
  String.mk (decodeTokens [] (percentTokens s.data))

/-- Python `s.replace('+', ' ')`. -/
def plusToSpace (s : String) : String :=
  String.mk (s.data.map (fun c => if c == '+' then ' ' else c))

/-- `urllib.parse.parse_qsl(qs)` with default arguments: split the query
on `'&'`, drop empty chunks, drop chunks without `'='` and chunks whose
value is empty (`keep_blank_values=False`), then `+`-decode and
percent-decode names and values. -/
def parse_qsl (qs : String) : List (String × String) :=
  (strSplitOnChar '&' qs).filterMap (fun nameValue =>
    if nameValue = "" then none
    else
      let (name, value) := splitFirst nameValue.data '='
      if !nameValue.data.contains '=' then none
      else if value.isEmpty then none
      else some (unquote (plusToSpace (String.mk name)),
                 unquote (plusToSpace (String.mk value))))

/-- `urllib.parse.parse_qs(qs)`: aggregate `parse_qsl` pairs into a dict
from names to lists of values, keys in first-appearance order. -/
def parse_qs (qs : String) : List (String × List String) :=
  (parse_qsl qs).foldl (fun d kv =>
    if d.any (fun e => e.1 == kv.1) then
      d.map (fun e => if e.1 == kv.1 then (e.1, e.2 ++ [kv.2]) else e)
    else d ++ [(kv.1, [kv.2])]) []

/-! ### `urlunsplit`, `urlunparse`, `urldefrag`, `urljoin` (CPython 3.11) -/

/-- `urllib.parse.urlunsplit`. -/
def urlunsplit (s : SplitResult) : String :=
  let url := s.path
  let url :=
    if s.netloc ≠ "" ∨ (url ≠ "" ∧ url.take 2 = "//") then
      "//" ++ s.netloc ++
        (if url ≠ "" ∧ ¬ (strStartsWith url "/") then "/" ++ url else url)
    else url
  let url := if s.scheme ≠ "" then s.scheme ++ ":" ++ url else url
  let url := if s.query ≠ "" then url ++ "?" ++ s.query else url
  if s.fragment ≠ "" then url ++ "#" ++ s.fragment else url

/-- `urllib.parse.urlunparse`: re-attach `;params` to the path, then
`urlunsplit`. -/
def urlunparse (p : ParseResult) : String :=
  urlunsplit ⟨p.scheme, p.netloc,
    (if p.params ≠ "" then p.path ++ ";" ++ p.params else p.path),
    p.query, p.fragment⟩

/-- First component of `urllib.parse.urldefrag(url)`: when a `'#'` is
present, re-parse and re-assemble the URL without its fragment; otherwise
the URL itself.  Parsing errors propagate as in CPython. -/
def urldefragE (url : String) : Except String String :=
  if url.data.contains '#' then do
    let p ← urlparse url
    .ok (urlunparse ⟨p.scheme, p.netloc, p.path, p.params, p.query, ""⟩)
  else .ok url

/-- Total wrapper for `urldefrag`, used at call sites where the URL has
already been parsed successfully (so the error branch is unreachable). -/
def urldefragTotal (url : String) : String :=
  match urldefragE url with
  | .ok s => s
  | .error _ => url

/-- CPython `uses_relative`. -/
def uses_relative : List String :=
  ["", "ftp", "http", "gopher", "nntp", "imap", "wais", "file", "https",
   "shttp", "mms", "prospero", "rtsp", "rtspu", "sftp", "svn", "svn+ssh",
   "ws", "wss"]

/-- CPython `uses_netloc`. -/
def uses_netloc : List String :=
  ["", "ftp", "http", "gopher", "nntp", "telnet", "imap", "wais", "file",
   "mms", "https", "shttp", "snews", "prospero", "rtsp", "rtspu", "rsync",
   "svn", "svn+ssh", "sftp", "nfs", "git", "git+ssh", "ws", "wss"]

/-- Python `segments[1:-1] = filter(None, segments[1:-1])`: drop empty
strings strictly between the first and last element. -/
def filterMiddle : List String → List String
  | [] => []
  | [x] => [x]
  | x :: xs =>
    x :: (xs.dropLast.filter (fun s => !(s == ""))) ++
      (match xs.getLast? with | some last => [last] | none => [])

/-- `urllib.parse.urljoin(base, url)`: CPython 3.11's implementation,
including RFC-3986 dot-segment resolution.  Raises (`.error`) exactly when
one of the two inner `urlsplit` calls raises. -/
def urljoin (base url : String) : Except String String := do
  if base = "" then .ok url
  else if url = "" then .ok base
  else
    let b ← urlsplit base ""
    let t ← urlsplit url b.scheme
    if t.scheme ≠ b.scheme ∨ ¬ uses_relative.contains t.scheme then .ok url
    else if uses_netloc.contains t.scheme ∧ t.netloc ≠ "" then
      .ok (urlunsplit t)
    else
      let netloc := if uses_netloc.contains t.scheme then b.netloc
        else t.netloc
      if t.path = "" ∧ t.query = "" then
        .ok (urlunsplit ⟨t.scheme, netloc, b.path, b.query, t.fragment⟩)
      else if t.path = "" then
        .ok (urlunsplit ⟨t.scheme, netloc, b.path, t.query, t.fragment⟩)
      else
        let baseSegs := strSplitOnChar '/' b.path
        let baseSegs := if baseSegs.getLast? ≠ some "" then baseSegs.dropLast
          else baseSegs
        let segments :=
          if strStartsWith t.path "/" then strSplitOnChar '/' t.path
          else filterMiddle (baseSegs ++ strSplitOnChar '/' t.path)
        let resolved := segments.foldl (fun acc seg =>
          if seg = ".." then acc.dropLast
          else if seg = "." then acc
          else acc ++ [seg]) ([] : List String)
        let resolved :=
          if segments.getLast? = some "." ∨ segments.getLast? = some ".." then
            resolved ++ [""]
          else resolved
        let joined := String.intercalate "/" resolved
        .ok (urlunsplit ⟨t.scheme, netloc,
          (if joined = "" then "/" else joined), t.query, t.fragment⟩)

/-! ### `is_valid` (src/scraper.py lines 179-314)

The function is a chain of early-`return False` rejection rules followed
by one final expression; `checkChain` reproduces that first-match-wins
control flow.  The only exception a `str` input can provoke is the
`ValueError` raised by `urlparse` on an unbalanced-bracket netloc; the
`except TypeError` clause re-`raise`s, so every exception propagates to
the caller (modelled by `Except.error`). -/

/-- Sequential early-return chain: each `true` rule returns `False`
immediately; when no rule fires the final expression is returned. -/
def checkChain : List Bool → Bool → Bool
  | [], final => final
  | c :: cs, final => if c then false else checkChain cs final

/-- Allow-listed academic domains (lines 187-192). -/
def allowed_domains : List String :=
  ["ics.uci.edu", "cs.uci.edu", "informatics.uci.edu", "stat.uci.edu"]

/-- Non-empty `'/'`-separated path components (lines 196 and 202 compute
the same list twice, as `path_parts` and `path_segments`). -/
def pathParts (path : String) : List String :=
  (strSplitOnChar '/' path).filter (fun part => !(part == ""))

/-- Rule 1 (line 184): scheme must be http or https. -/
def schemeBad (p : ParseResult) : Bool :=
  !(p.scheme == "http" || p.scheme == "https")

/-- Rule 2 (line 193): netloc must end with an allow-listed domain. -/
def domainBad (p : ParseResult) : Bool :=
  !(allowed_domains.any (fun domain => strEndsWith p.netloc domain))

/-- Rule 3 (lines 196-199): some path segment occurs at least 3 times. -/
def repeatTrap (p : ParseResult) : Bool :=
  (pathParts p.path).any (fun folder =>
    decide (3 ≤ (pathParts p.path).count folder))

/-- Rule 4 (line 203): path depth above 5. -/
def depthBad (p : ParseResult) : Bool :=
  decide (5 < (pathParts p.path).length)

/-- Rule 5 (line 206): the URL string itself is longer than 100. -/
def lengthBad (url : String) : Bool := decide (100 < url.length)

/-- Does the predicate match at some position of the list (the `re.search`
existential)? -/
def anyPosition (test : List Char → Bool) : List Char → Bool
  | [] => test []
  | c :: rest => test (c :: rest) || anyPosition test rest

/-- Consume an exact literal. -/
def eatLit (lit : List Char) (cs : List Char) : Option (List Char) :=
  if lit.isPrefixOf cs then some (cs.drop lit.length) else none

/-- Consume exactly `n` decimal digits. -/
def eatDigitsExact (n : Nat) (cs : List Char) : Option (List Char) :=
  if ((cs.take n).length = n) && (cs.take n).all Char.isDigit then
    some (cs.drop n)
  else none

/-- Consume one of the literal alternatives (regex `(a|b|…)` over fixed
words, tried in order). -/
def eatAlt (alts : List (List Char)) (cs : List Char) :
    Option (List Char) :=
  alts.firstM (fun alt => eatLit alt cs)

/-- Consume a character from a class. -/
def eatClass (cls : Char → Bool) (cs : List Char) : Option (List Char) :=
  match cs with
  | c :: rest => if cls c then some rest else none
  | [] => none

/-- Rule 6 (line 210): the date pattern `re.search` — a slash, four
digits, a dash-or-slash separator, two digits, another separator, two
digits. -/
def datePat (p : ParseResult) : Bool :=
  anyPosition (fun cs =>
    (do
      let cs ← eatLit ['/'] cs
      let cs ← eatDigitsExact 4 cs
      let cs ← eatClass (fun c => c == '-' || c == '/') cs
      let cs ← eatDigitsExact 2 cs
      let cs ← eatClass (fun c => c == '-' || c == '/') cs
      let _ ← eatDigitsExact 2 cs
      some ()).isSome) p.path.data

/-- Rule 7 (line 214): `re.search(r'/\d{4}/', path)`. -/
def yearPat (p : ParseResult) : Bool :=
  anyPosition (fun cs =>
    (do
      let cs ← eatLit ['/'] cs
      let cs ← eatDigitsExact 4 cs
      let _ ← eatLit ['/'] cs
      some ()).isSome) p.path.data

/-- Rule 8 (line 218):
`re.search(r'/(spring|fall|winter|summer|quarter)-?\d{4}', path, re.I)`.
The `re.I` patterns are matched against the lower-cased path, which is
equivalent for these letter-only literals. -/
def seasonPat (p : ParseResult) : Bool :=
  anyPosition (fun cs =>
    (do
      let cs ← eatLit ['/'] cs
      let cs ← eatAlt (["spring", "fall", "winter", "summer",
        "quarter"].map String.data) cs
      let cs := match eatLit ['-'] cs with | some r => r | none => cs
      let _ ← eatDigitsExact 4 cs
      some ()).isSome) (toLowerStr p.path).data

/-- Rule 9 (line 222):
`re.search(r'/(events?|calendar)/(day|list|month|week|category)/', path, re.I)`. -/
def eventNavPat (p : ParseResult) : Bool :=
  anyPosition (fun cs =>
    (do
      let cs ← eatLit ['/'] cs
      let cs ← eatAlt (["events", "event", "calendar"].map String.data) cs
      let cs ← eatLit ['/'] cs
      let cs ← eatAlt (["day", "list", "month", "week",
        "category"].map String.data) cs
      let _ ← eatLit ['/'] cs
      some ()).isSome) (toLowerStr p.path).data

/-- Rule 10 (line 226): wiki revision history. -/
def wikiRev (p : ParseResult) : Bool :=
  strContains p.netloc "wiki" && strContains p.query "rev="

/-- Rule 11 (line 230): `re.search(r'/lib/exe/fetch\.php', path)`. -/
def wikiFetch (p : ParseResult) : Bool :=
  strContains p.path "/lib/exe/fetch.php"

/-- Rule 12 (line 234): `re.search(r'/page/\d+', path, re.I)`. -/
def pagePat (p : ParseResult) : Bool :=
  anyPosition (fun cs =>
    (do
      let cs ← eatLit "/page/".data cs
      let _ ← eatClass Char.isDigit cs
      some ()).isSome) (toLowerStr p.path).data

/-- Rule 13 (line 238):
`re.search(r'/(author|user|profile|member|uid)/\d+', path, re.I)`. -/
def userEnumPat (p : ParseResult) : Bool :=
  anyPosition (fun cs =>
    (do
      let cs ← eatLit ['/'] cs
      let cs ← eatAlt (["author", "user", "profile", "member",
        "uid"].map String.data) cs
      let cs ← eatLit ['/'] cs
      let _ ← eatClass Char.isDigit cs
      some ()).isSome) (toLowerStr p.path).data

/-- Rule 14 (line 242):
`re.search(r'/(api|rest|endpoint|service)/v?\d+', path, re.I)`. -/
def apiPat (p : ParseResult) : Bool :=
  anyPosition (fun cs =>
    (do
      let cs ← eatLit ['/'] cs
      let cs ← eatAlt (["api", "rest", "endpoint",
        "service"].map String.data) cs
      let cs ← eatLit ['/'] cs
      let cs := match eatLit ['v'] cs with | some r => r | none => cs
      let _ ← eatClass Char.isDigit cs
      some ()).isSome) (toLowerStr p.path).data

/-- ASCII model of the regex word character `\w`. -/
def isWordChar (c : Char) : Bool := c.isAlphanum || c == '_'

/-- Rule 15 (line 246):
`re.search(r'/(gallery|photo|image|media)/\w+/\d+', path, re.I)`.
Since `\w` cannot match `'/'`, the `\w+` run must be the maximal word-
character run after the group, followed by `'/'` and a digit. -/
def galleryPat (p : ParseResult) : Bool :=
  anyPosition (fun cs =>
    (do
      let cs ← eatLit ['/'] cs
      let cs ← eatAlt (["gallery", "photo", "image",
        "media"].map String.data) cs
      let cs ← eatLit ['/'] cs
      let run := cs.takeWhile isWordChar
      if run.isEmpty then none
      else
        let cs := cs.dropWhile isWordChar
        let cs ← eatLit ['/'] cs
        let _ ← eatClass Char.isDigit cs
        some ()).isSome) (toLowerStr p.path).data

/-- UI-state tokens of the per-parameter-name loop (lines 274-277). -/
def uiTokens : List String :=
  ["tab", "view", "mode", "do", "action", "sort", "filter", "page",
   "display", "show", "format"]

/-- Rules 22 (lines 274-277): some `parse_qs` parameter name contains a
UI-state token (the name is lower-cased first). -/
def uiParamHit (p : ParseResult) : Bool :=
  (parse_qs p.query).any (fun kv =>
    uiTokens.any (fun ui => strContains (toLowerStr kv.1) ui))

/-- Trap parameter names (lines 279-281). -/
def trap_params : List String :=
  ["date", "cal", "calendar", "share", "replytocom", "print",
   "offset", "month", "year", "day", "replyto", "reply",
   "comment", "commentid", "mobile", "device"]

/-- Rule 23 (line 282): `any(param in query_params for param in trap_params)`. -/
def trapParamHit (p : ParseResult) : Bool :=
  trap_params.any (fun param =>
    (parse_qs p.query).any (fun kv => kv.1 == param))

/-- Rule 24 (line 285): more than two distinct query parameters. -/
def tooManyParams (p : ParseResult) : Bool :=
  decide (2 < (parse_qs p.query).length)

/-- Trap path substrings (lines 288-295). -/
def trap_patterns : List String :=
  ["/calendar/", "/wp-json/", "/feed/", "/print/", "/download/",
   "/wp-content/uploads/"]

/-- Rule 25 (line 297): some trap pattern occurs in the lower-cased path. -/
def trapPathHit (p : ParseResult) : Bool :=
  trap_patterns.any (fun pattern => strContains (toLowerStr p.path) pattern)

/-- The file-extension denylist of the final `re.match` (lines 300-308),
with `jpe?g` and `tiff?` expanded. -/
def extDenylist : List String :=
  ["css", "js", "bmp", "gif", "jpeg", "jpg", "ico",
   "png", "tiff", "tif", "mid", "mp2", "mp3", "mp4",
   "wav", "avi", "mov", "mpeg", "ram", "m4v", "mkv", "ogg", "ogv", "pdf",
   "ps", "eps", "tex", "ppt", "pptx", "doc", "docx", "xls", "xlsx",
   "names", "data", "dat", "exe", "bz2", "tar", "msi", "bin", "7z",
   "psd", "dmg", "iso", "epub", "dll", "cnf", "tgz", "sha1",
   "thmx", "mso", "arff", "rtf", "jar", "csv",
   "rm", "smil", "wmv", "swf", "wma", "zip", "rar", "gz"]

/-- Final expression (line 300): `not re.match(r".*\.(…)$", path.lower())`,
i.e. the lower-cased path must not end in a denylisted extension.  (The
path cannot contain a newline after `urlsplit`'s byte removal, so `.*…$`
is exactly an end-of-string match.) -/
def extAllowed (p : ParseResult) : Bool :=
  !(extDenylist.any (fun ext => strEndsWith (toLowerStr p.path) ("." ++ ext)))

/-- The ordered rejection rules of `is_valid`, exactly in source order. -/
def rejectionRules (url : String) (p : ParseResult) : List Bool :=
  [schemeBad p, domainBad p, repeatTrap p, depthBad p, lengthBad url,
   datePat p, yearPat p, seasonPat p, eventNavPat p, wikiRev p,
   wikiFetch p, pagePat p, userEnumPat p, apiPat p, galleryPat p,
   strContains p.query "do=media",
   strContains p.query "tribe-bar-date",
   strContains p.query "ical=" || strContains p.query "outlook-ical=",
   strContains p.query "q=" || strContains p.query "search=" ||
     strContains p.query "query=",
   strContains p.query "v=" || strContains p.query "version=" ||
     strContains p.query "timestamp=" || strContains p.query "time=",
   strContains p.query "section=" || strContains p.query "anchor=",
   uiParamHit p, trapParamHit p, tooManyParams p, trapPathHit p]

/-- `is_valid(url)` (lines 179-314).  The body runs inside `try`, but the
only handler is `except TypeError`, which prints and re-`raise`s; the
`ValueError` that `urlparse` can raise is not caught at all, so every
parsing exception reaches the caller. -/
def is_valid (url : String) : Except String Bool :=
  match urlparse url with
  | .error e => .error e
  | .ok parsed => .ok (checkChain (rejectionRules url parsed)
      (extAllowed parsed))

/-! ### Analytics store (src/scraper.py lines 17-48)

Python dicts and `collections.Counter`s are modelled as insertion-ordered
association lists; the `unique_pages` set is a `Finset String`.  The JSON
layer round-trips string-keyed integer maps losslessly and is modelled as
the identity on those lists; `list(set)` enumerates the set in an
arbitrary order, modelled as the sorted enumeration. -/

/-- The in-memory `analytics` dictionary. -/
structure Analytics where
  unique_pages : Finset String
  word_counts : List (String × Nat)
  all_words : List (String × Nat)
  subdomains : List (String × Nat)
  longest_page : String × Nat
deriving DecidableEq

/-- The on-disk snapshot written by `save_analytics` (lines 37-46):
`unique_pages` becomes a list, the Counters become plain dicts. -/
structure SavedAnalytics where
  unique_pages : List String
  word_counts : List (String × Nat)
  all_words : List (String × Nat)
  subdomains : List (String × Nat)
  longest_page : String × Nat
deriving DecidableEq, Repr

/-- `save_analytics` (lines 37-46). -/
def save_analytics (a : Analytics) : SavedAnalytics :=
  { unique_pages := a.unique_pages.sort (fun x y => x ≤ y),
    word_counts := a.word_counts,
    all_words := a.all_words,
    subdomains := a.subdomains,
    longest_page := a.longest_page }

/-- `load_analytics` (lines 21-35): when the snapshot file is present its
lists are rehydrated (`set(...)`, `Counter(...)`); when absent, the empty
snapshot is returned. -/
def load_analytics : Option SavedAnalytics → Analytics
  | some d =>
    { unique_pages := d.unique_pages.toFinset,
      word_counts := d.word_counts,
      all_words := d.all_words,
      subdomains := d.subdomains,
      longest_page := d.longest_page }
  | none =>
    { unique_pages := ∅,
      word_counts := [],
      all_words := [],
      subdomains := [],
      longest_page := ("", 0) }

/-! ### Dict / Counter primitives -/

/-- `d.get(k, 0)` / `Counter[k]` (a missing key reads as 0). -/
def dictGetD (d : List (String × Nat)) (k : String) : Nat :=
  match d.lookup k with
  | some v => v
  | none => 0

/-- `d[k] = v`: overwrite in place (keeping the key's position) or append
a new key at the end, as Python dicts do. -/
def dictSet (d : List (String × Nat)) (k : String) (v : Nat) :
    List (String × Nat) :=
  if d.any (fun kv => kv.1 == k) then
    d.map (fun kv => if kv.1 == k then (k, v) else kv)
  else d ++ [(k, v)]

/-- `Counter[k] += n`. -/
def counterAdd (d : List (String × Nat)) (k : String) (n : Nat) :
    List (String × Nat) :=
  dictSet d k (dictGetD d k + n)

/-- `Counter.update(words)`: add 1 for each word, in order. -/
def counterUpdate (d : List (String × Nat)) (ws : List String) :
    List (String × Nat) :=
  ws.foldl (fun acc w => counterAdd acc w 1) d

/-! ### Stop words and tokenisation (lines 51-68, 112-117) -/

/-- The `STOP_WORDS` set (lines 51-68); apostrophes are written `\x27`. -/
def STOP_WORDS : List String :=
  ["a", "about", "above", "after", "again", "against", "all", "am", "an",
   "and", "any", "are", "aren\x27t", "as", "at", "be", "because", "been",
   "before", "being", "below", "between", "both", "but", "by", "can\x27t",
   "cannot", "could", "couldn\x27t", "did", "didn\x27t", "do", "does",
   "doesn\x27t", "doing", "don\x27t", "down", "during", "each", "few",
   "for", "from", "further", "had", "hadn\x27t", "has", "hasn\x27t",
   "have", "haven\x27t", "having", "he", "he\x27d", "he\x27ll", "he\x27s",
   "her", "here", "here\x27s", "hers", "herself", "him", "himself", "his",
   "how", "how\x27s", "i", "i\x27d", "i\x27ll", "i\x27m", "i\x27ve", "if",
   "in", "into", "is", "isn\x27t", "it", "it\x27s", "its", "itself",
   "let\x27s", "me", "more", "most", "mustn\x27t", "my", "myself", "no",
   "nor", "not", "of", "off", "on", "once", "only", "or", "other",
   "ought", "our", "ours", "ourselves", "out", "over", "own", "same",
   "shan\x27t", "she", "she\x27d", "she\x27ll", "she\x27s", "should",
   "shouldn\x27t", "so", "some", "such", "than", "that", "that\x27s",
   "the", "their", "theirs", "them", "themselves", "then", "there",
   "there\x27s", "these", "they", "they\x27d", "they\x27ll", "they\x27re",
   "they\x27ve", "this", "those", "through", "to", "too", "under",
   "until", "up", "very", "was", "wasn\x27t", "we", "we\x27d", "we\x27ll",
   "we\x27re", "we\x27ve", "were", "weren\x27t", "what", "what\x27s",
   "when", "when\x27s", "where", "where\x27s", "which", "while", "who",
   "who\x27s", "whom", "why", "why\x27s", "with", "won\x27t", "would",
   "wouldn\x27t", "you", "you\x27d", "you\x27ll", "you\x27re", "you\x27ve",
   "your", "yours", "yourself", "yourselves"]

/-- Is the character a lowercase ASCII letter (`[a-z]`)? -/
def isLowerAZ (c : Char) : Bool := 'a' ≤ c && c ≤ 'z'

/-- One left-to-right pass implementing
`re.findall(r'\b[a-z]{2,}\b', text)` on already lower-cased text: collect
maximal `[a-z]` runs of length at least 2 whose neighbours (if any) are
not word characters.  `acc` is the current run (reversed), `okL` records
whether the run's left edge is a word boundary. -/
def wordsAux (acc : List Char) (okL : Bool) : List Char → List String
  | [] => if okL && decide (2 ≤ acc.length) then [String.mk acc.reverse]
      else []
  | c :: rest =>
    if isLowerAZ c then wordsAux (c :: acc) okL rest
    else
      (if okL && decide (2 ≤ acc.length) && !isWordChar c then
        [String.mk acc.reverse]
      else []) ++ wordsAux [] (!isWordChar c) rest

/-- `re.findall(r'\b[a-z]{2,}\b', text.lower())` (line 114; ASCII model
of `str.lower` and `\w`). -/
def pageWords (text : String) : List String :=
  wordsAux [] true (toLowerStr text).data

/-- `[w for w in words if w not in STOP_WORDS]` (line 117). -/
def filteredWordsOf (text : String) : List String :=
  (pageWords text).filter (fun w => !(STOP_WORDS.contains w))

/-! ### The response object and crawl state -/

/-- The parsed outcome BeautifulSoup produces from the page bytes: the
visible text after dropping script/style/meta/link/noscript elements, and
the `href` attributes of the `<a href=…>` anchors found by
`find_all('a', href=True)` (used both for the link-density count and for
the extraction loop). -/
structure HtmlDoc where
  text : String
  anchors : List String
deriving DecidableEq, Repr

/-- `resp.raw_response.content`, abstracted to its byte length and its
parse outcome (`none` models a parser exception raised by
`BeautifulSoup`). -/
structure RawContent where
  length : Nat
  parsed : Option HtmlDoc
deriving DecidableEq, Repr

/-- `resp.raw_response` (`none` models `None`). -/
structure RawResponse where
  content : Option RawContent
deriving DecidableEq, Repr

/-- The response object consumed by `extract_next_links`. -/
structure Response where
  status : Int
  raw_response : Option RawResponse
deriving DecidableEq, Repr

/-- Process-wide mutable state: the `analytics` dict and the
`subdomain_page_count` Counter (lines 17-19, 48). -/
structure CrawlState where
  analytics : Analytics
  subdomain_page_count : List (String × Nat)
deriving DecidableEq

/-- The state at process start with no snapshot file on disk:
`analytics = load_analytics()` and an empty subdomain Counter. -/
def initState : CrawlState :=
  { analytics := load_analytics none, subdomain_page_count := [] }

/-- `MAX_PAGES_PER_SUBDOMAIN` (line 20). -/
def MAX_PAGES_PER_SUBDOMAIN : Nat := 2000

/-! ### `extract_next_links` (lines 74-177) -/

/-- Outcome of the guard chain of `extract_next_links` up to the point
where the page is accepted (line 131): an uncaught exception from the
`urlparse` call at line 95, a rejection (empty return with the state
untouched), or acceptance carrying the parsed URL, the parsed document
and the filtered word list. -/
inductive PageEval where
  | err (e : String)
  | reject
  | accept (p : ParseResult) (doc : HtmlDoc) (filtered : List String)
deriving DecidableEq, Repr

/-- The guard chain of `extract_next_links` (lines 86-128): status and
content checks, the 5 MB cap, the `urlparse` call (line 95, outside the
`try`, so its `ValueError` escapes), the per-subdomain cap, HTML parsing
(a parser exception is caught at line 173 and yields an empty return
before any state change), the 150-word minimum and the link-density cap.
The Python density test `len(links)/len(filtered_words) > 0.3` is a float
comparison; it is modelled exactly on rationals as
`10 * len(links) > 3 * len(filtered_words)`, which agrees with the float
test except on a sub-ulp boundary band that no rule of this file
depends on. -/
def evalPage (url : String) (resp : Response) (st : CrawlState) :
    PageEval :=
  if resp.status ≠ 200 then .reject
  else match resp.raw_response with
  | none => .reject
  | some rr => match rr.content with
    | none => .reject
    | some content =>
      if content.length = 0 then .reject
      else if 5 * 1024 * 1024 < content.length then .reject
      else match urlparse url with
      | .error e => .err e
      | .ok parsed =>
        if MAX_PAGES_PER_SUBDOMAIN ≤
            dictGetD st.subdomain_page_count parsed.netloc then .reject
        else match content.parsed with
        | none => .reject
        | some doc =>
          if (filteredWordsOf doc.text).length < 150 then .reject
          else if 3 * (filteredWordsOf doc.text).length <
              10 * doc.anchors.length then .reject
          else .accept parsed doc (filteredWordsOf doc.text)

/-- The state mutations of the acceptance branch (lines 131-153): bump the
subdomain run counter, add the defragmented URL to `unique_pages`, store
the page's word count, merge the words into `all_words`, update
`longest_page` when strictly longer, and count the subdomain when the
netloc ends in `.uci.edu`.  The sequential Python updates touch disjoint
fields and are written here as one record update.  (The periodic
`save_analytics` checkpoint at line 156 only writes the snapshot file and
does not change the in-memory state.) -/
def recordPage (st : CrawlState) (parsed : ParseResult) (url : String)
    (filtered : List String) : CrawlState :=
  let defragged := urldefragTotal url
  let wc := filtered.length
  { analytics :=
      { unique_pages := insert defragged st.analytics.unique_pages,
        word_counts := dictSet st.analytics.word_counts defragged wc,
        all_words := counterUpdate st.analytics.all_words filtered,
        longest_page :=
          if st.analytics.longest_page.2 < wc then (defragged, wc)
          else st.analytics.longest_page,
        subdomains :=
          if strEndsWith parsed.netloc ".uci.edu" then
            counterAdd st.analytics.subdomains parsed.netloc 1
          else st.analytics.subdomains },
    subdomain_page_count :=
      counterAdd st.subdomain_page_count parsed.netloc 1 }

/-- Is the href skipped by the loop guard (line 165)? -/
def skipHref (href : String) : Bool :=
  href == "" || href == "#" || strStartsWith href "javascript:" ||
    strStartsWith href "mailto:" || strStartsWith href "tel:"

/-- The link loop (lines 161-171): strip each href, skip empty /
fragment-only / javascript / mailto / tel links, resolve against the page
URL, strip the fragment, and collect into the `found_urls` set.  An
exception from `urljoin` aborts the loop (it is caught by the handler at
line 173). -/
def resolveLinks (pageURL : String) (hrefs : List String) :
    Except String (Finset String) :=
  hrefs.foldlM (fun found href0 =>
    let href := strTrim href0
    if skipHref href then pure found
    else do
      let absolute ← urljoin pageURL href
      pure (insert (urldefragTotal absolute) found))
    (∅ : Finset String)

/-- `extract_next_links(url, resp)` (lines 74-177) as a function of the
process state.  A `.error` result models an exception escaping to the
caller (possible only from the line-95 `urlparse`); every exception inside
the `try` block is caught at line 173 and produces an empty list, keeping
whatever state mutations had already happened.  Python returns
`list(found_urls)` in an unspecified set order, modelled as the sorted
enumeration. -/
def extract_next_links (url : String) (resp : Response)
    (st : CrawlState) : Except String (List String × CrawlState) :=
  match evalPage url resp st with
  | .err e => .error e
  | .reject => .ok ([], st)
  | .accept parsed doc filtered =>
    let st2 := recordPage st parsed url filtered
    match resolveLinks url doc.anchors with
    | .error _ => .ok ([], st2)
    | .ok found => .ok (found.sort (fun x y => x ≤ y), st2)

/-- Left-to-right effectful filtering, as the list comprehension
`[link for link in links if is_valid(link)]` evaluates. -/
def filterValid : List String → Except String (List String)
  | [] => .ok []
  | x :: xs => do
    let b ← is_valid x
    let rest ← filterValid xs
    .ok (if b then x :: rest else rest)

/-- `scraper(url, resp)` (lines 70-72). -/
def scraper (url : String) (resp : Response) (st : CrawlState) :
    Except String (List String × CrawlState) := do
  let (links, st2) ← extract_next_links url resp st
  let kept ← filterValid links
  .ok (kept, st2)

/-! ### Runs of the process -/

/-- One `extract_next_links` call as a state transformer.  A call that
raises does so at the line-95 `urlparse`, before any state mutation, so
the state observed at that point is unchanged. -/
def stepState (st : CrawlState) (inp : String × Response) : CrawlState :=
  match extract_next_links inp.1 inp.2 st with
  | .ok (_, st') => st'
  | .error _ => st

/-- A run from process start: fold the calls over `initState`. -/
def runCrawl (inps : List (String × Response)) : CrawlState :=
  inps.foldl stepState initState

/-- One step of the instrumented run: the new state plus the
`(defragmented URL, filtered word count)` record of the call when the
page was accepted. -/
def stepTrace (acc : CrawlState × List (String × Nat))
    (inp : String × Response) : CrawlState × List (String × Nat) :=
  (stepState acc.1 inp,
   acc.2 ++ (match evalPage inp.1 inp.2 acc.1 with
     | .accept _ _ filtered => [(urldefragTotal inp.1, filtered.length)]
     | _ => []))

/-- The instrumented run from process start: final state plus one record
per ContentFilter-accepted call, in order. -/
def runTrace (inps : List (String × Response)) :
    CrawlState × List (String × Nat) :=
  inps.foldl stepTrace (initState, [])

/-- Maximum of a list of naturals (0 when empty): the claims' "maximum
over all values" of a counts table. -/
def listMax (ns : List Nat) : Nat := ns.foldr max 0

/-- What counts as "a query parameter name" in the claims' sense,
independently of `parse_qs`'s blank-dropping: the part of each
`'&'`-separated chunk before its first `'='` (the whole chunk when it has
no `'='`), for non-empty chunks. -/
def specQueryParamNames (qs : String) : List String :=
  (strSplitOnChar '&' qs).filterMap (fun chunk =>
    if chunk = "" then none
    else some (String.mk (splitFirst chunk.data '=').1))

/-- The five UI-state tokens named by the claim about query-parameter
names (a subset of `uiTokens`). -/
def claimUiTokens : List String := ["sort", "filter", "view", "tab", "page"]

/-! ### Concrete demonstration inputs -/

/-- A page text of `n` copies of the non-stop-word token `zz`. -/
def demoText (n : Nat) : String :=
  String.intercalate " " (List.replicate n "zz")

/-- A status-200 response whose parse yields `n` filtered words and the
given anchors. -/
def demoResp (n : Nat) (anchors : List String) : Response :=
  { status := 200,
    raw_response := some
      { content := some { length := 1000,
                          parsed := some { text := demoText n,
                                           anchors := anchors } } } }

/-- The page URL used by the demonstration runs. -/
def demoURL : String := "https://www.ics.uci.edu/"

/-- Two accepted fetches of the same URL. -/
def demoRunSame : List (String × Response) :=
  [(demoURL, demoResp 150 []), (demoURL, demoResp 150 [])]

/-- The same URL accepted with 200 words, then re-accepted with 150. -/
def demoRunShrink : List (String × Response) :=
  [(demoURL, demoResp 200 []), (demoURL, demoResp 150 [])]

/-- A response whose only anchor makes `urljoin` raise `ValueError`
("Invalid IPv6 URL") inside the link loop, after the analytics update. -/
def demoRespBadAnchor : Response := demoResp 150 ["http://[::1"]

/-- A 404 response carrying no content. -/
def demoResp404 : Response := { status := 404, raw_response := none }

/-! ## Helper lemmas -/

/-- A rule chain with a firing rule rejects. -/
theorem checkChain_false_of_mem {cs : List Bool} {final : Bool}
    (h : true ∈ cs) : checkChain cs final = false := by
  induction cs with
  | nil => cases h
  | cons c cs ih =>
    cases c with
    | true => simp [checkChain]
    | false =>
      have hmem : true ∈ cs := by
        rcases List.mem_cons.mp h with hc | hc
        · cases hc
        · exact hc
      simp [checkChain, ih hmem]

/-- `is_valid` rejects whenever one of its rejection rules fires. -/
theorem is_valid_false_of_rule {url : String} {p : ParseResult}
    (hp : urlparse url = .ok p) (h : true ∈ rejectionRules url p) :
    is_valid url = .ok false := by
  simp [is_valid, hp, checkChain_false_of_mem h]

/-- Spelled-out membership of each element of the rule list. -/
theorem mem_rejectionRules (url : String) (p : ParseResult) (b : Bool)
    (h : b = schemeBad p ∨ b = domainBad p ∨ b = repeatTrap p ∨
      b = uiParamHit p) : b ∈ rejectionRules url p := by
  rcases h with h | h | h | h <;> subst h <;> simp [rejectionRules]

/-- A rejected or raising call leaves the state unchanged. -/
theorem stepState_of_not_accept {st : CrawlState}
    {inp : String × Response}
    (h : ∀ p doc filtered, evalPage inp.1 inp.2 st ≠ .accept p doc filtered) :
    stepState st inp = st := by
  unfold stepState extract_next_links
  cases he : evalPage inp.1 inp.2 st with
  | err e => rfl
  | reject => rfl
  | accept p doc filtered => exact absurd he (h p doc filtered)

/-- An accepting call records the page (the link loop does not touch the
state, whether or not it raises). -/
theorem stepState_of_accept {st : CrawlState} {inp : String × Response}
    {p : ParseResult} {doc : HtmlDoc} {filtered : List String}
    (h : evalPage inp.1 inp.2 st = .accept p doc filtered) :
    stepState st inp = recordPage st p inp.1 filtered := by
  unfold stepState extract_next_links
  rw [h]
  dsimp only
  cases hr : resolveLinks inp.1 doc.anchors <;> simp [hr]

/-- Membership in `dictSet`: every entry of the updated dict is the new
pair or an old entry. -/
theorem mem_dictSet {d : List (String × Nat)} {k : String} {v : Nat}
    {kv : String × Nat} (h : kv ∈ dictSet d k v) :
    kv = (k, v) ∨ kv ∈ d := by
  unfold dictSet at h
  split at h
  · rcases List.mem_map.mp h with ⟨kv', hmem, heq⟩
    by_cases hk : kv'.1 == k
    · simp [hk] at heq
      exact Or.inl heq.symm
    · simp [hk] at heq
      exact Or.inr (heq ▸ hmem)
  · rcases List.mem_append.mp h with hm | hm
    · exact Or.inr hm
    · simp at hm
      exact Or.inl hm

/-- `listMax` over a snoc. -/
theorem listMax_append_singleton (l : List Nat) (a : Nat) :
    listMax (l ++ [a]) = max (listMax l) a := by
  induction l with
  | nil => simp [listMax, Nat.max_comm]
  | cons x l ih =>
    simp only [List.cons_append, listMax, List.foldr_cons] at *
    rw [ih, Nat.max_assoc]

/-- The longest-page update of `recordPage` as a `max`. -/
theorem ite_lt_eq_max (L wc : Nat) :
    (if L < wc then wc else L) = max L wc := by
  by_cases h : L < wc
  · simp [h, Nat.max_eq_right (Nat.le_of_lt h)]
  · simp [h, Nat.max_eq_left (Nat.le_of_not_lt h)]

/-- The guard chain only accepts pages whose filtered word count reaches
the 150-word minimum, with a successfully parsed page URL. -/
theorem evalPage_accept_facts {url : String} {resp : Response}
    {st : CrawlState} {p : ParseResult} {doc : HtmlDoc}
    {filtered : List String}
    (h : evalPage url resp st = .accept p doc filtered) :
    urlparse url = .ok p ∧ filtered = filteredWordsOf doc.text ∧
      150 ≤ filtered.length := by
  unfold evalPage at h
  split at h
  · cases h
  · split at h
    · cases h
    · split at h
      · cases h
      · split at h
        · cases h
        · split at h
          · cases h
          · split at h
            · cases h
            · next hparse =>
              split at h
              · cases h
              · split at h
                · cases h
                · split at h
                  · cases h
                  · next hlen =>
                    split at h
                    · cases h
                    · cases h
                      exact ⟨hparse, rfl, Nat.le_of_not_lt hlen⟩

/-! ## C1 — `is_valid` never raises -/

/-- C1, counterexample: the structurally unparseable URL `http://[::1`
does not make `is_valid` return `False`; the `ValueError` raised by
`urlparse` propagates to the caller (the `except TypeError` clause
re-raises and catches nothing else). -/
theorem c1_counterexample :
    is_valid "http://[::1" = Except.error "Invalid IPv6 URL" := by rfl

/-- C1, amended: for every URL that `urlparse` can parse, `is_valid`
terminates and returns a boolean without raising; a URL that fails to
parse structurally propagates the parsing exception to the caller instead
of being classified as invalid. -/
theorem c1_amended :
    (∀ (url : String) (p : ParseResult), urlparse url = .ok p →
      ∃ b, is_valid url = Except.ok b) ∧
    (∀ (url : String) (e : String), urlparse url = .error e →
      is_valid url = Except.error e) := by
  constructor
  · intro url p h
    refine ⟨checkChain (rejectionRules url p) (extAllowed p), ?_⟩
    simp [is_valid, h]
  · intro url e h
    simp [is_valid, h]

/-- C1 witness: the amended statement applied to a concrete parseable
URL. -/
theorem c1_amended_witness :
    ∃ b, is_valid "https://ics.uci.edu/" = Except.ok b :=
  c1_amended.1 "https://ics.uci.edu/"
    ⟨"https", "ics.uci.edu", "/", "", "", ""⟩ (by rfl)

/-! ## C5 — non-200 / empty responses change nothing -/

/-- C5: whenever the status is not 200 or the raw content is absent or
empty, `scraper` returns an empty list and the analytics state is
returned unchanged. -/
theorem c5_confirmed :
    ∀ (url : String) (resp : Response) (st : CrawlState),
      (resp.status ≠ 200 ∨ resp.raw_response = none ∨
        (∃ rr, resp.raw_response = some rr ∧ (rr.content = none ∨
          (∃ c, rr.content = some c ∧ c.length = 0)))) →
      scraper url resp st = Except.ok ([], st) := by
  intro url resp st h
  have he : evalPage url resp st = .reject := by
    rcases h with h | h | ⟨rr, hrr, h⟩
    · simp [evalPage, h]
    · simp [evalPage, h]
    · rcases h with h | ⟨c, hc, hlen⟩
      · simp [evalPage, hrr, h]
      · simp [evalPage, hrr, hc, hlen]
  simp [scraper, extract_next_links, he, filterValid, Bind.bind,
    Except.bind]

/-- C5 witness: a 404 response at the initial state. -/
theorem c5_confirmed_witness :
    scraper demoURL demoResp404 initState = Except.ok ([], initState) :=
  c5_confirmed demoURL demoResp404 initState (Or.inl (by decide))

/-! ## C9 — analytics snapshot round trip -/

/-- C9: saving any analytics snapshot and loading it back yields the same
snapshot (set and histogram semantics preserved; the enumeration order of
the persisted `unique_pages` list is irrelevant). -/
theorem c9_confirmed :
    ∀ a : Analytics, load_analytics (some (save_analytics a)) = a := by
  intro a
  cases a with
  | mk up wc aw sd lp =>
    simp [load_analytics, save_analytics]

/-! ## C6 — UI-state query parameter names -/

/-- C6, counterexample: `https://ics.uci.edu/?sort=` has a query
parameter literally named `sort`, yet `is_valid` accepts it —
`parse_qs` drops parameters whose value is empty
(`keep_blank_values=False`), so the per-name loop never sees `sort`. -/
theorem c6_counterexample :
    urlparse "https://ics.uci.edu/?sort=" =
      Except.ok ⟨"https", "ics.uci.edu", "/", "", "sort=", ""⟩ ∧
    specQueryParamNames "sort=" = ["sort"] ∧
    strContains (toLowerStr "sort") "sort" = true ∧
    parse_qs "sort=" = [] ∧
    is_valid "https://ics.uci.edu/?sort=" = Except.ok true := by
  exact ⟨rfl, rfl, rfl, rfl, rfl⟩

/-- C6, amended: for every URL whose query has a parameter with a
*non-empty value* (so that `parse_qs` retains it) whose name contains
`sort`, `filter`, `view`, `tab` or `page` case-insensitively, `is_valid`
returns false; parameters with empty values escape this rule. -/
theorem c6_amended :
    ∀ (url : String) (p : ParseResult), urlparse url = Except.ok p →
    ∀ kv, kv ∈ parse_qs p.query →
    (∃ t ∈ claimUiTokens, strContains (toLowerStr kv.1) t = true) →
    is_valid url = Except.ok false := by
  intro url p hp kv hkv ht
  rcases ht with ⟨t, htc, hc⟩
  have hsub : claimUiTokens ⊆ uiTokens := by decide
  have hui : uiParamHit p = true := by
    apply List.any_eq_true.mpr
    exact ⟨kv, hkv, List.any_eq_true.mpr ⟨t, hsub htc, hc⟩⟩
  exact is_valid_false_of_rule hp
    (hui ▸ mem_rejectionRules url p (uiParamHit p)
      (Or.inr (Or.inr (Or.inr rfl))))

/-- C6 witness: the amended statement applied to
`https://ics.uci.edu/?sort=1`. -/
theorem c6_amended_witness :
    is_valid "https://ics.uci.edu/?sort=1" = Except.ok false :=
  c6_amended "https://ics.uci.edu/?sort=1"
    ⟨"https", "ics.uci.edu", "/", "", "sort=1", ""⟩ (by rfl)
    ("sort", ["1"]) (by decide) ⟨"sort", by decide, by rfl⟩

/-! ## C7 — repeated path segments -/

/-- C7: every URL (that parses) whose path contains the same non-empty
segment three or more times is invalid. -/
theorem c7_confirmed :
    ∀ (url : String) (p : ParseResult), urlparse url = Except.ok p →
    (∃ seg ∈ pathParts p.path, 3 ≤ (pathParts p.path).count seg) →
    is_valid url = Except.ok false := by
  intro url p hp hrep
  rcases hrep with ⟨seg, hseg, hcount⟩
  have hrt : repeatTrap p = true := by
    apply List.any_eq_true.mpr
    exact ⟨seg, hseg, decide_eq_true hcount⟩
  exact is_valid_false_of_rule hp
    (hrt ▸ mem_rejectionRules url p (repeatTrap p)
      (Or.inr (Or.inr (Or.inl rfl))))

/-- C7 witness: `https://ics.uci.edu/a/a/a` is rejected. -/
theorem c7_confirmed_witness :
    is_valid "https://ics.uci.edu/a/a/a" = Except.ok false :=
  c7_confirmed "https://ics.uci.edu/a/a/a"
    ⟨"https", "ics.uci.edu", "/a/a/a", "", "", ""⟩ (by rfl)
    ⟨"a", by decide, by decide⟩

/-! ## C8 — host allow-list -/

/-- C8, counterexample: the code suffix-matches the *netloc* (which still
contains userinfo and port), not the host.  `http://evil.com:1ics.uci.edu/`
has host `evil.com` — no allow-listed domain is a suffix of it — yet
`is_valid` accepts the URL because its netloc string ends with
`ics.uci.edu`. -/
theorem c8_counterexample :
    urlparse "http://evil.com:1ics.uci.edu/" =
      Except.ok ⟨"http", "evil.com:1ics.uci.edu", "/", "", "", ""⟩ ∧
    hostnameOf "evil.com:1ics.uci.edu" = some "evil.com" ∧
    allowed_domains.all
      (fun d => !(strEndsWith "evil.com" d)) = true ∧
    is_valid "http://evil.com:1ics.uci.edu/" = Except.ok true := by
  exact ⟨rfl, rfl, rfl, rfl⟩

/-- C8, amended: the allow-list check is a suffix match on the *netloc*
(the authority string, including any userinfo and port): every URL (that
parses) whose netloc does not end with one of `ics.uci.edu`, `cs.uci.edu`,
`informatics.uci.edu`, `stat.uci.edu` is invalid. -/
theorem c8_amended :
    ∀ (url : String) (p : ParseResult), urlparse url = Except.ok p →
    (∀ d ∈ allowed_domains, strEndsWith p.netloc d = false) →
    is_valid url = Except.ok false := by
  intro url p hp hdom
  have hd : domainBad p = true := by
    unfold domainBad
    have : allowed_domains.any (fun domain => strEndsWith p.netloc domain)
        = false := by
      apply List.any_eq_false.mpr
      intro d hdm
      simp [hdom d hdm]
    simp [this]
  exact is_valid_false_of_rule hp
    (hd ▸ mem_rejectionRules url p (domainBad p) (Or.inr (Or.inl rfl)))

/-- C8 witness: the amended statement applied to
`https://example.com/`. -/
theorem c8_amended_witness :
    is_valid "https://example.com/" = Except.ok false :=
  c8_amended "https://example.com/"
    ⟨"https", "example.com", "/", "", "", ""⟩ (by rfl) (by decide)

/-! ## C2 — `unique_pages` size vs. number of accepted pages -/

/-- Invariant of the instrumented run: `unique_pages` is exactly the set
of defragmented URLs of the accepted calls recorded so far. -/
theorem runTraceAux_unique (inps : List (String × Response)) :
    ∀ (st : CrawlState) (acc : List (String × Nat)),
      st.analytics.unique_pages = (acc.map Prod.fst).toFinset →
      (inps.foldl stepTrace (st, acc)).1.analytics.unique_pages =
        (((inps.foldl stepTrace (st, acc)).2).map Prod.fst).toFinset := by
  induction inps with
  | nil => intro st acc h; simpa using h
  | cons inp inps ih =>
    intro st acc h
    simp only [List.foldl_cons]
    have hstep : (stepTrace (st, acc) inp).1.analytics.unique_pages =
        (((stepTrace (st, acc) inp).2).map Prod.fst).toFinset := by
      unfold stepTrace
      cases he : evalPage inp.1 inp.2 st with
      | err e =>
        rw [stepState_of_not_accept (by simp [he])]
        simpa [he] using h
      | reject =>
        rw [stepState_of_not_accept (by simp [he])]
        simpa [he] using h
      | accept p doc filtered =>
        rw [stepState_of_accept he]
        simp only [he, recordPage, h, List.map_append, List.map_cons,
          List.map_nil, List.toFinset_append]
        ext x
        simp [or_comm]
    rcases hp : stepTrace (st, acc) inp with ⟨st', acc'⟩
    rw [hp] at hstep
    exact ih st' acc' hstep

/-- C2, counterexample: two ContentFilter-accepted calls for the same URL
leave `unique_pages` with a single element, so its size is not the number
of accepted pages. -/
theorem c2_counterexample :
    (runTrace demoRunSame).1.analytics.unique_pages.card = 1 ∧
    (runTrace demoRunSame).2.length = 2 ∧
    (runTrace demoRunSame).1.analytics.unique_pages.card ≠
      (runTrace demoRunSame).2.length := by
  have h1 : (runTrace demoRunSame).1.analytics.unique_pages.card = 1 := by
    rfl
  have h2 : (runTrace demoRunSame).2.length = 2 := by rfl
  exact ⟨h1, h2, by rw [h1, h2]; decide⟩

/-- C2, amended: at every point of a run from process start,
`unique_pages` equals the set of *distinct* defragmented URLs of the
ContentFilter-accepted calls so far (so its size is the number of
distinct accepted page URLs, not the number of acceptances), and its size
is monotonically non-decreasing across every call. -/
theorem c2_amended :
    (∀ inps : List (String × Response),
      (runTrace inps).1.analytics.unique_pages =
        (((runTrace inps).2).map Prod.fst).toFinset) ∧
    (∀ (st : CrawlState) (inp : String × Response),
      st.analytics.unique_pages ⊆
        (stepState st inp).analytics.unique_pages) := by
  constructor
  · intro inps
    exact runTraceAux_unique inps initState [] (by
      simp [initState, load_analytics])
  · intro st inp
    cases he : evalPage inp.1 inp.2 st with
    | err e =>
      rw [stepState_of_not_accept (by simp [he])]
    | reject =>
      rw [stepState_of_not_accept (by simp [he])]
    | accept p doc filtered =>
      rw [stepState_of_accept he]
      exact Finset.subset_insert _ _

/-! ## C3 — `longest_page` vs. the `word_counts` maximum -/

/-- Invariant of the instrumented run: `longest_page.word_count` is the
maximum over the word counts of all accepted calls so far, and it bounds
every entry of `word_counts`. -/
theorem runTraceAux_longest (inps : List (String × Response)) :
    ∀ (st : CrawlState) (acc : List (String × Nat)),
      st.analytics.longest_page.2 = listMax (acc.map Prod.snd) →
      (∀ kv ∈ st.analytics.word_counts,
        kv.2 ≤ st.analytics.longest_page.2) →
      (inps.foldl stepTrace (st, acc)).1.analytics.longest_page.2 =
        listMax (((inps.foldl stepTrace (st, acc)).2).map Prod.snd) ∧
      (∀ kv ∈ (inps.foldl stepTrace (st, acc)).1.analytics.word_counts,
        kv.2 ≤ (inps.foldl stepTrace (st, acc)).1.analytics.longest_page.2) := by
  induction inps with
  | nil =>
    intro st acc h hb
    exact ⟨by simpa using h, by simpa using hb⟩
  | cons inp inps ih =>
    intro st acc h hb
    simp only [List.foldl_cons]
    rcases hp : stepTrace (st, acc) inp with ⟨st', acc'⟩
    have hmax : st'.analytics.longest_page.2 = listMax (acc'.map Prod.snd) := by
      unfold stepTrace at hp
      cases he : evalPage inp.1 inp.2 st with
      | err e =>
        rw [he] at hp
        simp only at hp
        injection hp with hp1 hp2
        rw [← hp1, ← hp2, stepState_of_not_accept (by simp [he])]
        simpa using h
      | reject =>
        rw [he] at hp
        simp only at hp
        injection hp with hp1 hp2
        rw [← hp1, ← hp2, stepState_of_not_accept (by simp [he])]
        simpa using h
      | accept p doc filtered =>
        rw [he] at hp
        simp only at hp
        injection hp with hp1 hp2
        rw [← hp1, ← hp2, stepState_of_accept he]
        simp only [recordPage, List.map_append, List.map_cons, List.map_nil]
        rw [listMax_append_singleton, ← h]
        simp only [apply_ite Prod.snd]
        rw [ite_lt_eq_max]
    have hbound : ∀ kv ∈ st'.analytics.word_counts,
        kv.2 ≤ st'.analytics.longest_page.2 := by
      unfold stepTrace at hp
      cases he : evalPage inp.1 inp.2 st with
      | err e =>
        rw [he] at hp
        simp only at hp
        injection hp with hp1 hp2
        rw [← hp1, stepState_of_not_accept (by simp [he])]
        exact hb
      | reject =>
        rw [he] at hp
        simp only at hp
        injection hp with hp1 hp2
        rw [← hp1, stepState_of_not_accept (by simp [he])]
        exact hb
      | accept p doc filtered =>
        rw [he] at hp
        simp only at hp
        injection hp with hp1 hp2
        rw [← hp1, stepState_of_accept he]
        intro kv hkv
        simp only [recordPage] at hkv ⊢
        simp only [apply_ite Prod.snd]
        rw [ite_lt_eq_max]
        rcases mem_dictSet hkv with heq | hold
        · rw [heq]
          exact Nat.le_max_right _ _
        · exact Nat.le_trans (hb kv hold) (Nat.le_max_left _ _)
    exact ih st' acc' hmax hbound

/-- C3, counterexample: accept a page with 200 filtered words, then
re-accept the same URL with 150; `word_counts` is overwritten to 150 but
`longest_page.word_count` stays 200, which is not the maximum over the
stored `word_counts` values. -/
theorem c3_counterexample :
    (runTrace demoRunShrink).1.analytics.longest_page.2 = 200 ∧
    listMax
      (((runTrace demoRunShrink).1.analytics.word_counts).map Prod.snd) =
      150 ∧
    (runTrace demoRunShrink).1.analytics.longest_page.2 ≠
      listMax
        (((runTrace demoRunShrink).1.analytics.word_counts).map
          Prod.snd) := by
  have h1 : (runTrace demoRunShrink).1.analytics.longest_page.2 = 200 := by
    rfl
  have h2 : listMax
      (((runTrace demoRunShrink).1.analytics.word_counts).map Prod.snd) =
      150 := by rfl
  exact ⟨h1, h2, by rw [h1, h2]; decide⟩

/-- C3, amended: in a run from process start,
`longest_page.word_count` equals the maximum filtered word count over
*all acceptance events* so far — hence it is an upper bound for (but,
after an overwrite by a smaller re-crawled count, not necessarily equal
to the maximum of) the values stored in `word_counts` — and a
`recordPage` update changes `longest_page` exactly when the newly
accepted page's count is strictly greater than the current value. -/
theorem c3_amended :
    (∀ inps : List (String × Response),
      (runTrace inps).1.analytics.longest_page.2 =
        listMax (((runTrace inps).2).map Prod.snd)) ∧
    (∀ (inps : List (String × Response)) (kv : String × Nat),
      kv ∈ (runTrace inps).1.analytics.word_counts →
      kv.2 ≤ (runTrace inps).1.analytics.longest_page.2) ∧
    (∀ (st : CrawlState) (p : ParseResult) (url : String)
        (filtered : List String),
      (recordPage st p url filtered).analytics.longest_page =
        if st.analytics.longest_page.2 < filtered.length then
          (urldefragTotal url, filtered.length)
        else st.analytics.longest_page) := by
  refine ⟨?_, ?_, ?_⟩
  · intro inps
    exact (runTraceAux_longest inps initState []
      (by simp [initState, load_analytics, listMax])
      (by simp [initState, load_analytics])).1
  · intro inps kv hkv
    exact (runTraceAux_longest inps initState []
      (by simp [initState, load_analytics, listMax])
      (by simp [initState, load_analytics])).2 kv hkv
  · intro st p url filtered
    rfl

/-- C3 witness: the bound applied to a concrete run and entry. -/
theorem c3_amended_witness :
    (("https://www.ics.uci.edu/", 150) : String × Nat).2 ≤
      (runTrace demoRunSame).1.analytics.longest_page.2 :=
  c3_amended.2.1 demoRunSame ("https://www.ics.uci.edu/", 150) (by decide)

/-! ## C10 — every recorded word count is at least 150 -/

/-- Step invariant: the 150-word acceptance threshold bounds every value
ever written into `word_counts`. -/
theorem runCrawl_wordCounts_min (inps : List (String × Response)) :
    ∀ st : CrawlState,
      (∀ kv ∈ st.analytics.word_counts, 150 ≤ kv.2) →
      ∀ kv ∈ (inps.foldl stepState st).analytics.word_counts, 150 ≤ kv.2 := by
  induction inps with
  | nil => intro st h; simpa using h
  | cons inp inps ih =>
    intro st h
    simp only [List.foldl_cons]
    apply ih
    intro kv hkv
    cases he : evalPage inp.1 inp.2 st with
    | err e =>
      rw [stepState_of_not_accept (by simp [he])] at hkv
      exact h kv hkv
    | reject =>
      rw [stepState_of_not_accept (by simp [he])] at hkv
      exact h kv hkv
    | accept p doc filtered =>
      rw [stepState_of_accept he] at hkv
      simp only [recordPage] at hkv
      rcases mem_dictSet hkv with heq | hold
      · rw [heq]
        exact (evalPage_accept_facts he).2.2
      · exact h kv hold

/-- C10: in any run from process start, every entry of `word_counts` has
value at least 150 — a page is recorded only when its filtered token
count reaches the minimum-information threshold. -/
theorem c10_confirmed :
    ∀ (inps : List (String × Response)) (kv : String × Nat),
      kv ∈ (runCrawl inps).analytics.word_counts → 150 ≤ kv.2 := by
  intro inps kv hkv
  exact runCrawl_wordCounts_min inps initState
    (by simp [initState, load_analytics]) kv hkv

/-- C10 witness: applied to a concrete run and its recorded entry. -/
theorem c10_confirmed_witness :
    150 ≤ (("https://www.ics.uci.edu/", 150) : String × Nat).2 :=
  c10_confirmed demoRunSame ("https://www.ics.uci.edu/", 150) (by decide)

/-! ## C4 — exceptions in the extraction body -/

/-- A raising guard chain means the line-95 `urlparse` raised. -/
theorem evalPage_err_facts {url : String} {resp : Response}
    {st : CrawlState} {e : String}
    (h : evalPage url resp st = .err e) : urlparse url = .error e := by
  unfold evalPage at h
  split at h
  · cases h
  · split at h
    · cases h
    · split at h
      · cases h
      · split at h
        · cases h
        · split at h
          · cases h
          · split at h
            · next hparse =>
              cases h
              exact hparse
            · split at h
              · cases h
              · split at h
                · cases h
                · split at h
                  · cases h
                  · split at h
                    · cases h
                    · cases h

/-- C4, counterexample: a page is accepted, the analytics are updated,
and then `urljoin` raises `ValueError` inside the link loop on the anchor
`http://[::1`; the exception is caught and the call returns an empty
list, but the AnalyticsStore is *not* left unchanged — the page was
already recorded. -/
theorem c4_counterexample :
    extract_next_links demoURL demoRespBadAnchor initState =
      Except.ok ([], ⟨⟨{"https://www.ics.uci.edu/"},
        [("https://www.ics.uci.edu/", 150)], [("zz", 150)],
        [("www.ics.uci.edu", 1)], ("https://www.ics.uci.edu/", 150)⟩,
        [("www.ics.uci.edu", 1)]⟩) ∧
    initState.analytics.unique_pages = ∅ := by
  exact ⟨by rfl, by rfl⟩

/-- C4, amended: once the page URL itself parses (line 95), no exception
escapes `extract_next_links`; an HTML-parse failure is caught and returns
an empty list with the state unchanged, and a link-resolution exception is
caught and returns an empty list — but the page was already recorded, so
the AnalyticsStore keeps that call's update. -/
theorem c4_amended :
    (∀ (url : String) (resp : Response) (st : CrawlState)
        (p : ParseResult), urlparse url = Except.ok p →
      ∃ r st', extract_next_links url resp st = Except.ok (r, st')) ∧
    (∀ (url : String) (resp : Response) (st : CrawlState),
      evalPage url resp st = .reject →
      extract_next_links url resp st = Except.ok ([], st)) ∧
    (∀ (url : String) (resp : Response) (st : CrawlState)
        (p : ParseResult) (doc : HtmlDoc) (filtered : List String),
      evalPage url resp st = .accept p doc filtered →
      (∃ e, resolveLinks url doc.anchors = Except.error e) →
      extract_next_links url resp st =
        Except.ok ([], recordPage st p url filtered)) := by
  refine ⟨?_, ?_, ?_⟩
  · intro url resp st p hp
    cases he : evalPage url resp st with
    | err e =>
      rw [evalPage_err_facts he] at hp
      cases hp
    | reject => exact ⟨[], st, by simp [extract_next_links, he]⟩
    | accept p' doc filtered =>
      unfold extract_next_links
      rw [he]
      dsimp only
      cases hr : resolveLinks url doc.anchors with
      | error e => exact ⟨[], recordPage st p' url filtered, rfl⟩
      | ok found =>
        exact ⟨found.sort (fun x y => x ≤ y),
          recordPage st p' url filtered, rfl⟩
  · intro url resp st h
    simp [extract_next_links, h]
  · intro url resp st p doc filtered he hr
    rcases hr with ⟨e, hre⟩
    unfold extract_next_links
    rw [he]
    dsimp only
    rw [hre]

/-- C4 witness: the amended statement applied to the bad-anchor call. -/
theorem c4_amended_witness :
    (∃ r st', extract_next_links demoURL demoRespBadAnchor initState =
      Except.ok (r, st')) ∧
    extract_next_links demoURL demoRespBadAnchor initState =
      Except.ok ([], recordPage initState
        ⟨"https", "www.ics.uci.edu", "/", "", "", ""⟩ demoURL
        (filteredWordsOf (demoText 150))) := by
  constructor
  · exact c4_amended.1 demoURL demoRespBadAnchor initState
      ⟨"https", "www.ics.uci.edu", "/", "", "", ""⟩ (by rfl)
  · exact c4_amended.2.2 demoURL demoRespBadAnchor initState
      ⟨"https", "www.ics.uci.edu", "/", "", "", ""⟩
      ⟨demoText 150, ["http://[::1"]⟩ (filteredWordsOf (demoText 150))
      (by rfl) ⟨"Invalid IPv6 URL", by rfl⟩

end Crawler
